import Mathlib

/-!
Verification of the Momentary notification-scheduling and capture-window
engine together with its session/login authentication subsystem.

The Python sources (`app/main.py`, `app/db.py`) are shallowly embedded:

* A UTC instant (`datetime` with `tzinfo=timezone.utc`) is modelled as a
  calendar day (an integer, days since an arbitrary epoch) together with a
  microsecond-of-day. Python `datetime` comparison and subtraction agree
  with comparison and subtraction of the total microsecond count, and
  `.date()` is the day component. Every instant produced by `datetime.now`
  satisfies `us < dayUs`.
* The SQLite tables are modelled as a `DbState` record. Rows of
  `prompt_history` carry increasing autoincrement ids, so the table is
  modelled as a list with the newest row first: `INSERT` is `cons`,
  `ORDER BY id DESC LIMIT n` is `take n`, and the `prune` statement that
  deletes all but the `n` largest ids is also `take n`.
* `random.choice` is an arbitrary function `choice : List Nat → Nat`
  assumed (as a hypothesis where needed) to return a member of any
  non-empty list.
* The cryptographic and serialisation library calls (HMAC-SHA256, JSON,
  base64url) are Python-stdlib externals, not repository code; they are
  parameters of the embedded functions, with the round-trip facts that
  hold of the real codecs taken as hypotheses where a theorem needs them.
  Byte strings handled by the token code are modelled as `List Char`.
-/

/-- A UTC instant: calendar day plus microsecond-of-day.
`datetime.now(timezone.utc)` always yields `us < dayUs`. -/
structure Instant where
  day : Int
  us : Nat
  deriving DecidableEq, Repr

/-- Microseconds in one day. -/
def dayUs : Nat := 86400000000

/-- Total microseconds since the epoch; Python `datetime` ordering and
subtraction coincide with ordering and subtraction of this count. -/
def Instant.toUs (a : Instant) : Int := a.day * (dayUs : Int) + (a.us : Int)

/-- `(a - b).total_seconds()`, expressed in microseconds (the comparison
against 60 s in the code is exact at this scale). -/
def Instant.diffUs (a b : Instant) : Int := a.toUs - b.toUs

/-- `hour * 60 + minute` of an instant, as computed by
`Database.add_prompt_history`. -/
def Instant.minuteOfDay (a : Instant) : Nat :=
  (a.us / 3600000000) * 60 + (a.us % 3600000000) / 60000000

/-- An instant representable by a real `datetime`. -/
def Instant.valid (a : Instant) : Prop := a.us < dayUs

instance : DecidablePred Instant.valid := fun a =>
  inferInstanceAs (Decidable (a.us < dayUs))

/-- `PROMPT_MINUTE_HISTORY_DAYS` from `app/main.py`. -/
def PROMPT_MINUTE_HISTORY_DAYS : Nat := 1440

/-- `SESSION_TTL_SECONDS` from `app/main.py`. -/
def SESSION_TTL_SECONDS : Int := 60 * 60 * 24 * 14

/-- The two `available_minutes` lines of `choose_prompt_time`: the
complement of `excluded_minutes` in `range(24*60)`, falling back to the
full range when the complement is empty. They appear verbatim both
before and inside the retry branch, so they are factored out here. -/
def availablePool (excluded : List Nat) : List Nat :=
  if (List.range (24 * 60)).filter (fun m => ¬ m ∈ excluded) = [] then
    List.range (24 * 60)
  else
    (List.range (24 * 60)).filter (fun m => ¬ m ∈ excluded)

/-- `choose_prompt_time` from `app/main.py`. `choice` stands for
`random.choice`; `excluded` is the `excluded_minutes` set, modelled as a
list used only through membership. -/
def choose_prompt_time (choice : List Nat → Nat) (now : Instant)
    (last_prompt : Option Instant) (excluded : List Nat) : Instant :=
  let today := now.day
  let target_day :=
    match last_prompt with
    | some lp => if lp.day = today then today + 1 else today
    | none => today
  let minute_of_day := choice (availablePool excluded)
  let hour := minute_of_day / 60
  let minute := minute_of_day % 60
  let target : Instant := ⟨target_day, (hour * 3600 + minute * 60) * 1000000⟩
  if target.toUs ≤ now.toUs then
    let target_day := today + 1
    let minute_of_day := choice (availablePool excluded)
    let hour := minute_of_day / 60
    let minute := minute_of_day % 60
    ⟨target_day, (hour * 3600 + minute * 60) * 1000000⟩
  else
    target

/-- The property assumed of `random.choice`: on a non-empty list it
returns one of its members. -/
def ChoiceSpec (choice : List Nat → Nat) : Prop :=
  ∀ l : List Nat, l ≠ [] → choice l ∈ l

/-- A concrete function satisfying `ChoiceSpec`, used to instantiate
witnesses. -/
def headChoice (l : List Nat) : Nat := l.headD 0

theorem headChoice_spec : ChoiceSpec headChoice := by
  intro l hl
  cases l with
  | nil => exact absurd rfl hl
  | cons a t => simp [headChoice]

theorem availablePool_ne_nil (excluded : List Nat) : availablePool excluded ≠ [] := by
  unfold availablePool
  by_cases h : (List.range (24 * 60)).filter (fun m => ¬ m ∈ excluded) = []
  · rw [if_pos h]
    intro hc
    have h0 : (0 : Nat) ∈ List.range (24 * 60) := List.mem_range.mpr (by norm_num)
    rw [hc] at h0
    exact List.not_mem_nil 0 h0
  · rw [if_neg h]
    exact h

theorem availablePool_mem_lt (excluded : List Nat) (m : Nat)
    (hm : m ∈ availablePool excluded) : m < 1440 := by
  unfold availablePool at hm
  by_cases h : (List.range (24 * 60)).filter (fun m => ¬ m ∈ excluded) = []
  · rw [if_pos h] at hm
    exact List.mem_range.mp hm
  · rw [if_neg h] at hm
    exact List.mem_range.mp (List.mem_of_mem_filter hm)

theorem availablePool_not_excluded (excluded : List Nat)
    (hp : ∃ m0, m0 < 1440 ∧ m0 ∉ excluded) (m : Nat)
    (hm : m ∈ availablePool excluded) : m ∉ excluded := by
  obtain ⟨m0, hlt, hnx⟩ := hp
  have hne : (List.range (24 * 60)).filter (fun m => ¬ m ∈ excluded) ≠ [] := by
    intro hc
    have h0 : m0 ∈ (List.range (24 * 60)).filter (fun m => ¬ m ∈ excluded) := by
      apply List.mem_filter.mpr
      refine ⟨List.mem_range.mpr (by omega), by simpa using hnx⟩
    rw [hc] at h0
    exact List.not_mem_nil m0 h0
  unfold availablePool at hm
  rw [if_neg hne] at hm
  simpa using (List.mem_filter.mp hm).2

/-- Microsecond-of-day of the instant `choose_prompt_time` constructs
from a minute-of-day `m`. -/
def todOf (m : Nat) : Nat := (m / 60 * 3600 + m % 60 * 60) * 1000000

theorem todOf_lt_dayUs (m : Nat) (hm : m < 1440) : todOf m < dayUs := by
  unfold todOf dayUs
  omega

theorem minuteOfDay_todOf (d : Int) (m : Nat) :
    (Instant.mk d (todOf m)).minuteOfDay = m := by
  unfold Instant.minuteOfDay todOf
  simp only
  omega

/-- `choose_prompt_time` always returns an instant whose day is `now`'s
day or the next one, and whose time-of-day comes from the minute drawn
(by the single call pattern of `random.choice`) from `availablePool`. -/
theorem choose_prompt_time_shape (choice : List Nat → Nat) (now : Instant)
    (last_prompt : Option Instant) (excluded : List Nat) :
    ∃ d : Int, (d = now.day ∨ d = now.day + 1) ∧
      choose_prompt_time choice now last_prompt excluded =
        ⟨d, todOf (choice (availablePool excluded))⟩ := by
  unfold choose_prompt_time
  simp only
  split
  · exact ⟨now.day + 1, Or.inr rfl, rfl⟩
  · cases last_prompt with
    | none => exact ⟨now.day, Or.inl rfl, rfl⟩
    | some lp =>
      by_cases h : lp.day = now.day
      · exact ⟨now.day + 1, Or.inr rfl, by simp only [h, if_pos]; rfl⟩
      · exact ⟨now.day, Or.inl rfl, by simp only [if_neg h]; rfl⟩

/-- The picker's result is strictly after `now` and is a representable
instant, for any excluded set whatsoever. -/
theorem choose_prompt_time_sound (choice : List Nat → Nat) (now : Instant)
    (last_prompt : Option Instant) (excluded : List Nat)
    (hc : ChoiceSpec choice) (hnow : now.valid) :
    now.toUs < (choose_prompt_time choice now last_prompt excluded).toUs ∧
      (choose_prompt_time choice now last_prompt excluded).valid := by
  have hmem := hc _ (availablePool_ne_nil excluded)
  have hlt := availablePool_mem_lt excluded _ hmem
  unfold Instant.valid dayUs at hnow
  unfold choose_prompt_time
  simp only
  split
  · constructor
    · show now.toUs <
        Instant.toUs ⟨now.day + 1,
          (choice (availablePool excluded) / 60 * 3600 +
            choice (availablePool excluded) % 60 * 60) * 1000000⟩
      unfold Instant.toUs dayUs
      simp only
      omega
    · show (choice (availablePool excluded) / 60 * 3600 +
          choice (availablePool excluded) % 60 * 60) * 1000000 < dayUs
      unfold dayUs
      omega
  · next h =>
    constructor
    · exact lt_of_not_le h
    · show (choice (availablePool excluded) / 60 * 3600 +
          choice (availablePool excluded) % 60 * 60) * 1000000 < dayUs
      unfold dayUs
      omega

/-- The picker's selected minute-of-day lies in `availablePool`. -/
theorem choose_prompt_time_minute (choice : List Nat → Nat) (now : Instant)
    (last_prompt : Option Instant) (excluded : List Nat)
    (hc : ChoiceSpec choice) :
    (choose_prompt_time choice now last_prompt excluded).minuteOfDay ∈
      availablePool excluded := by
  obtain ⟨d, _, heq⟩ := choose_prompt_time_shape choice now last_prompt excluded
  rw [heq, minuteOfDay_todOf]
  exact hc _ (availablePool_ne_nil excluded)

/-- Claim C5: for every `now`, every optional `lastPromptInstant` and
every `excludedMinutes` set (the fully saturated `{0..1439}` included),
`choose_prompt_time` returns an instant strictly after `now` and never
fails: the result is always a representable instant (`datetime` is never
called with an out-of-range field, and `random.choice` is never handed
an empty pool). This covers the retry branch, whose next-day candidate
is accepted unconditionally and is still strictly after `now`. -/
theorem C5_picker_strictly_future (choice : List Nat → Nat) (now : Instant)
    (last_prompt : Option Instant) (excluded : List Nat)
    (hc : ChoiceSpec choice) (hnow : now.valid) :
    now.toUs < (choose_prompt_time choice now last_prompt excluded).toUs ∧
      (choose_prompt_time choice now last_prompt excluded).valid :=
  choose_prompt_time_sound choice now last_prompt excluded hc hnow

/-- Witness for C5 at the fully saturated exclusion set `{0..1439}`. -/
theorem C5_picker_strictly_future_witness :
    (Instant.mk 0 0).toUs <
        (choose_prompt_time headChoice ⟨0, 0⟩ none (List.range 1440)).toUs ∧
      (choose_prompt_time headChoice ⟨0, 0⟩ none (List.range 1440)).valid :=
  C5_picker_strictly_future headChoice ⟨0, 0⟩ none (List.range 1440)
    headChoice_spec (by decide)

/-- Claim C6: for every non-empty `excludedMinutes` that is a proper
subset of `{0..1439}`, the minute-of-day of the instant returned by
`choose_prompt_time` is never a member of `excludedMinutes` — in both
the first selection and the single next-day retry, which draw from the
same complement `{0..1439} \ excludedMinutes`. -/
theorem C6_picker_avoids_excluded (choice : List Nat → Nat) (now : Instant)
    (last_prompt : Option Instant) (excluded : List Nat)
    (hc : ChoiceSpec choice) (_hne : excluded ≠ [])
    (hproper : ∃ m0, m0 < 1440 ∧ m0 ∉ excluded) :
    (choose_prompt_time choice now last_prompt excluded).minuteOfDay ∉ excluded :=
  availablePool_not_excluded excluded hproper _
    (choose_prompt_time_minute choice now last_prompt excluded hc)

/-- Witness for C6 with the one-element exclusion set `{5}`. -/
theorem C6_picker_avoids_excluded_witness :
    ([5] : List Nat) ≠ [] ∧
      (choose_prompt_time headChoice ⟨0, 0⟩ none [5]).minuteOfDay ∉ ([5] : List Nat) :=
  ⟨by decide,
    C6_picker_avoids_excluded headChoice ⟨0, 0⟩ none [5] headChoice_spec
      (by decide) ⟨0, by decide, by decide⟩⟩

/-- A row of the `users` table (`created_at` is plumbing and omitted). -/
structure UserRow where
  id : Nat
  telegram_id : Int
  username : Option String
  deriving DecidableEq, Repr

/-- A row of the `photos` table: owning user and capture timestamp (the
`object_key` string is derived formatting, plumbing). -/
structure PhotoRow where
  user_id : Nat
  ts : Instant
  deriving DecidableEq, Repr

/-- The durable store of `app/db.py`, restricted to the tables the core
touches. Rows of `prompt_history` carry increasing autoincrement ids, so
the table is a list with the newest row first: `INSERT` is `cons`,
`ORDER BY id DESC LIMIT n` is `take n`, and deleting all but the `n`
largest ids is also `take n`. `next_user_id` models the AUTOINCREMENT
sequence of `users`. -/
structure DbState where
  users : List UserRow
  next_user_id : Nat
  banned : List Int
  registrations_open : Bool
  last_prompt : Option Instant
  next_prompt : Option Instant
  history : List (Instant × Nat)
  photos : List PhotoRow
  deriving DecidableEq, Repr

/-- `Database.is_user_banned`. -/
def is_user_banned (st : DbState) (telegram_id : Int) : Bool :=
  st.banned.contains telegram_id

/-- `Database.get_user_by_telegram`. -/
def get_user_by_telegram (st : DbState) (telegram_id : Int) : Option UserRow :=
  st.users.find? (fun u => u.telegram_id == telegram_id)

/-- `Database.upsert_user`: insert, or update the username on conflict;
returns the row id re-read by the trailing SELECT. -/
def upsert_user (st : DbState) (telegram_id : Int) (username : Option String) :
    Nat × DbState :=
  match st.users.find? (fun u => u.telegram_id == telegram_id) with
  | some u =>
    (u.id,
      { st with users := (st.users.map (fun v =>
          if v.telegram_id == telegram_id then
            { v with username := username } else v)) })
  | none =>
    (st.next_user_id,
      { st with
          users := st.users ++ [⟨st.next_user_id, telegram_id, username⟩],
          next_user_id := st.next_user_id + 1 })

/-- `Database.add_photo`. -/
def add_photo (st : DbState) (user_id : Nat) (ts : Instant) : DbState :=
  { st with photos := st.photos ++ [⟨user_id, ts⟩] }

/-- `Database.set_last_prompt`. -/
def set_last_prompt (st : DbState) (ts : Instant) : DbState :=
  { st with last_prompt := some ts }

/-- `Database.set_next_prompt`. -/
def set_next_prompt (st : DbState) (ts : Option Instant) : DbState :=
  { st with next_prompt := ts }

/-- `Database.add_prompt_history`: inserts the instant together with its
`hour * 60 + minute`. -/
def add_prompt_history (st : DbState) (ts : Instant) : DbState :=
  { st with history := (ts, ts.minuteOfDay) :: st.history }

/-- `Database.prune_prompt_history`: delete every row whose id is not
among the `limit` largest. -/
def prune_prompt_history (st : DbState) (limit : Nat) : DbState :=
  { st with history := st.history.take limit }

/-- `Database.get_recent_prompt_minutes`: the minute-of-day column of
the `limit` most recent rows, newest first. -/
def get_recent_prompt_minutes (st : DbState) (limit : Nat) : List Nat :=
  (st.history.take limit).map (fun e => e.2)

/-- `send_daily_prompt` (the `db`/`bot_app` globals are assumed
initialised; their absence is startup plumbing). `outcome r = true`
models a successful `bot.send_message` to recipient `r` and `false` a
raised delivery error, which the loop catches and logs. The returned
list records, in order, each recipient a delivery was attempted for,
with its outcome; `now` is the `prompt_time` read after the loop. -/
def send_daily_prompt (outcome : Int → Bool) (now : Instant) (st : DbState) :
    DbState × List (Int × Bool) :=
  if st.users = [] then
    (st, [])
  else
    let attempts := ((st.users.filter (fun u => ¬ st.banned.contains u.telegram_id)).map
      (fun u => (u.telegram_id, outcome u.telegram_id)))
    let st1 := set_last_prompt st now
    let st2 := add_prompt_history st1 now
    let st3 := prune_prompt_history st2 PROMPT_MINUTE_HISTORY_DAYS
    (st3, attempts)

/-- One pass of the target-determination part of `scheduler_loop`
(`app/main.py` lines 281–298): load the persisted next-prompt instant,
recompute and persist a fresh one when it is absent or not strictly in
the future, and return the instant the loop will sleep toward together
with the updated store. The `asyncio.sleep` and the broadcast that
follow are `send_daily_prompt`'s domain. -/
def scheduler_step (choice : List Nat → Nat) (now : Instant) (st : DbState) :
    Instant × DbState :=
  match st.next_prompt with
  | some target =>
    if target.toUs ≤ now.toUs then
      let last_prompt := st.last_prompt
      let excluded := get_recent_prompt_minutes st (PROMPT_MINUTE_HISTORY_DAYS - 1)
      let fresh := choose_prompt_time choice now last_prompt excluded
      (fresh, set_next_prompt st (some fresh))
    else
      (target, st)
  | none =>
    let last_prompt := st.last_prompt
    let excluded := get_recent_prompt_minutes st (PROMPT_MINUTE_HISTORY_DAYS - 1)
    let fresh := choose_prompt_time choice now last_prompt excluded
    (fresh, set_next_prompt st (some fresh))

/-- The capture-window predicate inlined in `handle_photo` (lines
656–667): reject when no prompt was ever broadcast, reject when
`(now - last_prompt).total_seconds() > 60`, accept otherwise. -/
def captureWindowAccept (now : Instant) (last_prompt : Option Instant) : Bool :=
  match last_prompt with
  | none => false
  | some lp => if (60 * 1000000 : Int) < now.diffUs lp then false else true

/-- The reply `handle_photo` sends back. -/
inductive PhotoReply where
  | bannedMsg
  | noPromptMsg
  | missedWindowMsg
  | savedMsg
  deriving DecidableEq, Repr

/-- `handle_photo`. `now` is the instant of the window check (line 662)
and `ts` the fresh `timestamp` taken after the download (line 681); the
Telegram download and the MinIO upload are external plumbing. -/
def handle_photo (now ts : Instant) (chat_id : Int) (username : Option String)
    (st : DbState) : DbState × PhotoReply :=
  if is_user_banned st chat_id then
    (st, .bannedMsg)
  else
    match st.last_prompt with
    | none => (st, .noPromptMsg)
    | some lp =>
      if (60 * 1000000 : Int) < now.diffUs lp then
        (st, .missedWindowMsg)
      else
        match get_user_by_telegram st chat_id with
        | none =>
          let r := upsert_user st chat_id username
          (add_photo r.2 r.1 ts, .savedMsg)
        | some u =>
          (add_photo st u.id ts, .savedMsg)

/-- Claim C1 (amended): the capture-window predicate accepts iff a last
prompt instant is recorded and `now − lastPromptAt ≤ 60 s`, with no
lower bound: it rejects when no prompt was ever recorded, rejects at
61 s, accepts at exactly 60 s — and it also accepts whenever
`now − lastPromptAt` is negative (`lastPromptAt` in the future), which
the original claim said it rejects. -/
theorem C1_capture_window_iff :
    (∀ (now : Instant) (last_prompt : Option Instant),
        captureWindowAccept now last_prompt = true ↔
          ∃ lp, last_prompt = some lp ∧ now.diffUs lp ≤ 60 * 1000000) ∧
      (∀ now : Instant, captureWindowAccept now none = false) ∧
      captureWindowAccept ⟨0, 61000000⟩ (some ⟨0, 0⟩) = false ∧
      captureWindowAccept ⟨0, 60000000⟩ (some ⟨0, 0⟩) = true ∧
      captureWindowAccept ⟨0, 0⟩ (some ⟨0, 10000000⟩) = true := by
  refine ⟨?_, fun _ => rfl, by decide, by decide, by decide⟩
  intro now last_prompt
  cases last_prompt with
  | none =>
    simp [captureWindowAccept]
  | some lp =>
    simp only [captureWindowAccept]
    constructor
    · intro h
      refine ⟨lp, rfl, ?_⟩
      by_contra hgt
      push_neg at hgt
      rw [if_pos hgt] at h
      exact Bool.false_ne_true h
    · rintro ⟨lp', heq, hle⟩
      injection heq with heq'
      subst heq'
      rw [if_neg (not_lt.mpr hle)]

/-- Counterexample to C1 as stated: a `lastPromptAt` ten seconds in the
future makes `now − lastPromptAt` negative, yet the predicate accepts
the submission. -/
theorem C1_counterexample :
    captureWindowAccept ⟨0, 0⟩ (some ⟨0, 10000000⟩) = true ∧
      Instant.diffUs ⟨0, 0⟩ ⟨0, 10000000⟩ < 0 := by
  constructor <;> decide

/-- `handle_photo` reaches its store-the-photo path exactly when the
sender is not banned and `captureWindowAccept` holds of the persisted
last prompt: the predicate of C1 is the gate the inbound photo handler
applies. -/
theorem handle_photo_saved_iff (now ts : Instant) (chat_id : Int)
    (username : Option String) (st : DbState) :
    (handle_photo now ts chat_id username st).2 = PhotoReply.savedMsg ↔
      (is_user_banned st chat_id = false ∧
        captureWindowAccept now st.last_prompt = true) := by
  unfold handle_photo captureWindowAccept
  by_cases hb : is_user_banned st chat_id = true
  · simp [hb]
  · rw [Bool.not_eq_true] at hb
    cases hlp : st.last_prompt with
    | none => simp [hb]
    | some lp =>
      by_cases hgt : (60000000 : Int) < now.diffUs lp
      · simp [hb, hgt, not_le.mpr hgt]
      · cases hu : get_user_by_telegram st chat_id <;>
          simp [hb, hgt, hu, not_lt.mp hgt]

/-- Wire data handled by the token code, modelled as character lists. -/
abbrev Str := List Char

/-- The decoded JSON session payload: the fields written by
`create_session_token` and read back by `parse_and_verify_session`. -/
structure SessionPayload where
  telegram_id : Int
  iat : Int
  exp : Int
  deriving DecidableEq, Repr

/-- `token.split(".", 1)` guarded by `if not token or "." not in token`:
split at the first dot, `none` when no dot occurs (which covers the
empty token). -/
def splitFirstDot (tok : Str) : Option (Str × Str) :=
  if '.' ∈ tok then
    some (tok.takeWhile (fun c => c ≠ '.'), (tok.dropWhile (fun c => c ≠ '.')).tail)
  else
    none

/-- `create_session_token`. `secret` is `APP_SESSION_SECRET` (`none`
models the unset variable, on which `_get_session_secret` raises
`RuntimeError`, modelled as `none`). `encodePayload` stands for the
stdlib `base64url(json.dumps(payload))`, `mac` for HMAC-SHA256 of a
byte string under the secret, `encodeSig` for `base64url` of a digest;
digests and secrets are byte lists. -/
def create_session_token (secret : Option (List Nat))
    (encodePayload : SessionPayload → Str) (mac : List Nat → Str → List Nat)
    (encodeSig : List Nat → Str) (telegram_id : Int) (issued_at : Int) :
    Option Str :=
  match secret with
  | none => none
  | some key =>
    let payload : SessionPayload :=
      ⟨telegram_id, issued_at, issued_at + SESSION_TTL_SECONDS⟩
    let payload_b64 := encodePayload payload
    let sig := mac key payload_b64
    let sig_b64 := encodeSig sig
    some (payload_b64 ++ '.' :: sig_b64)

/-- `parse_and_verify_session`. `decodeSig` stands for base64url-decode
of the signature half (`none` models the decode error the code
catches), `decodePayload` for `json.loads(base64url-decode(...))`
together with the integer read of `exp` (`none` models any of those
failing); `now` is `int(time.time())`. Every error raised inside the
`try` block — a missing secret included — is caught and yields `None`,
so the function is total and never distinguishes why it failed. -/
def parse_and_verify_session (secret : Option (List Nat))
    (mac : List Nat → Str → List Nat) (decodeSig : Str → Option (List Nat))
    (decodePayload : Str → Option SessionPayload) (now : Int) (tok : Str) :
    Option SessionPayload :=
  match splitFirstDot tok with
  | none => none
  | some (payload_b64, sig_b64) =>
    match secret with
    | none => none
    | some key =>
      let expected_sig := mac key payload_b64
      match decodeSig sig_b64 with
      | none => none
      | some provided_sig =>
        if provided_sig = expected_sig then
          match decodePayload payload_b64 with
          | none => none
          | some payload => if payload.exp < now then none else some payload
        else
          none

theorem takeWhile_ne_dot (pb sb : Str) (h : '.' ∉ pb) :
    (pb ++ '.' :: sb).takeWhile (fun c => c ≠ '.') = pb := by
  induction pb with
  | nil => simp [List.takeWhile_cons]
  | cons a t ih =>
    have ha : a ≠ '.' := fun hc => h (hc ▸ List.mem_cons_self a t)
    have ht : '.' ∉ t := fun hc => h (List.mem_cons_of_mem a hc)
    simp [List.takeWhile_cons, ha]
    simpa using ih ht

theorem dropWhile_ne_dot (pb sb : Str) (h : '.' ∉ pb) :
    (pb ++ '.' :: sb).dropWhile (fun c => c ≠ '.') = '.' :: sb := by
  induction pb with
  | nil => simp [List.dropWhile_cons]
  | cons a t ih =>
    have ha : a ≠ '.' := fun hc => h (hc ▸ List.mem_cons_self a t)
    have ht : '.' ∉ t := fun hc => h (List.mem_cons_of_mem a hc)
    simp [List.dropWhile_cons, ha]
    simpa using ih ht

/-- Splitting the token `create_session_token` assembles recovers the
two halves, provided the payload encoding is dot-free (base64url is). -/
theorem splitFirstDot_append (pb sb : Str) (h : '.' ∉ pb) :
    splitFirstDot (pb ++ '.' :: sb) = some (pb, sb) := by
  unfold splitFirstDot
  rw [if_pos (List.mem_append.mpr (Or.inr (List.mem_cons_self _ _)))]
  rw [takeWhile_ne_dot pb sb h, dropWhile_ne_dot pb sb h]
  rfl

/-- Exact characterisation of a successful session verification: every
failure mode (no dot, missing secret, signature decode failure,
signature mismatch, payload decode failure, expired) yields `none`, and
success requires them all to pass with `exp` not in the past. -/
theorem verify_some_iff (secret : Option (List Nat))
    (mac : List Nat → Str → List Nat) (decodeSig : Str → Option (List Nat))
    (decodePayload : Str → Option SessionPayload) (now : Int) (tok : Str)
    (p : SessionPayload) :
    parse_and_verify_session secret mac decodeSig decodePayload now tok =
        some p ↔
      ∃ pb sb key sig,
        splitFirstDot tok = some (pb, sb) ∧ secret = some key ∧
          decodeSig sb = some sig ∧ sig = mac key pb ∧
          decodePayload pb = some p ∧ now ≤ p.exp := by
  unfold parse_and_verify_session
  cases hsplit : splitFirstDot tok with
  | none => simp
  | some pr =>
    obtain ⟨pb, sb⟩ := pr
    cases secret with
    | none => simp
    | some key =>
      cases hsig : decodeSig sb with
      | none => simp [hsig]
      | some sig =>
        by_cases heq : sig = mac key pb
        · cases hpd : decodePayload pb with
          | none => simp [hsig, heq, hpd]
          | some q =>
            by_cases hexp : q.exp < now
            · simp only [hsig, heq, hpd, if_pos hexp, if_true, ite_true,
                Option.some.injEq, Prod.mk.injEq]
              constructor
              · intro h
                exact absurd h (by simp)
              · rintro ⟨pb', sb', key', sig', hsp, hk, hds, hm, hdp, hle⟩
                obtain ⟨rfl, rfl⟩ := Prod.mk.injEq .. ▸ Option.some.injEq .. ▸ hsp
                rw [hpd] at hdp
                obtain rfl := Option.some.injEq .. ▸ hdp
                omega
            · simp only [hsig, heq, hpd, if_neg hexp, Option.some.injEq,
                Prod.mk.injEq, if_true, ite_true]
              constructor
              · rintro rfl
                exact ⟨pb, sb, key, sig, ⟨rfl, rfl⟩, rfl, hsig, heq, hpd,
                  not_lt.mp hexp⟩
              · rintro ⟨pb', sb', key', sig', hsp, hk, hds, hm, hdp, hle⟩
                obtain ⟨rfl, rfl⟩ := Prod.mk.injEq .. ▸ Option.some.injEq .. ▸ hsp
                rw [hpd] at hdp
                exact Option.some.injEq .. ▸ hdp
        · simp only [hsig, heq, if_false]
          constructor
          · intro h
            exact absurd h (by simp [heq])
          · rintro ⟨pb', sb', key', sig', hsp, hk, hds, hm, hdp, hle⟩
            obtain ⟨rfl, rfl⟩ := Prod.mk.injEq .. ▸ Option.some.injEq .. ▸ hsp
            rw [hsig] at hds
            obtain rfl := Option.some.injEq .. ▸ hds
            obtain rfl := Option.some.injEq .. ▸ hk
            exact absurd hm heq

/-- Claim C3 (amended): session verification yields an identity iff the
token splits at a dot, a secret is configured, the provided signature
decodes and equals the recomputed MAC over the payload half, the
payload decodes, and `expiresAt` is not in the past — `now ≤ exp`, so a
token whose `expiresAt` equals the current second is still accepted
(the original claim required `exp` strictly in the future). All failure
modes yield `none` uniformly; the function is total (every exception
inside the `try` is caught). -/
theorem C3_verify_iff (secret : Option (List Nat))
    (mac : List Nat → Str → List Nat) (decodeSig : Str → Option (List Nat))
    (decodePayload : Str → Option SessionPayload) (now : Int) (tok : Str)
    (p : SessionPayload) :
    parse_and_verify_session secret mac decodeSig decodePayload now tok =
        some p ↔
      ∃ pb sb key sig,
        splitFirstDot tok = some (pb, sb) ∧ secret = some key ∧
          decodeSig sb = some sig ∧ sig = mac key pb ∧
          decodePayload pb = some p ∧ now ≤ p.exp :=
  verify_some_iff secret mac decodeSig decodePayload now tok p

/-- Counterexample to C3 as stated: with `expiresAt` equal to the
current second (`exp = now = 100`), verification still yields the
identity instead of failing. -/
theorem C3_counterexample :
    parse_and_verify_session (some [0]) (fun _ _ => [1]) (fun _ => some [1])
        (fun _ => some ⟨5, 0, 100⟩) 100 ('a' :: '.' :: ['b']) =
      some ⟨5, 0, 100⟩ := by
  rfl

/-- Claim C8: round-trip of session authentication. Under the
round-trip facts that hold of the stdlib base64url/JSON codecs (the
payload encoding is dot-free, signature and payload encodings decode
back), verifying the token minted for a subject id at any time strictly
before `issuedAt + SESSION_TTL_SECONDS` yields a payload carrying that
id, and verifying it at any time strictly after the expiry fails. -/
theorem C8_round_trip (key : List Nat) (encodePayload : SessionPayload → Str)
    (mac : List Nat → Str → List Nat) (encodeSig : List Nat → Str)
    (decodeSig : Str → Option (List Nat))
    (decodePayload : Str → Option SessionPayload) (tid t_issue : Int)
    (hdot : '.' ∉ encodePayload ⟨tid, t_issue, t_issue + SESSION_TTL_SECONDS⟩)
    (hsig : decodeSig (encodeSig (mac key
        (encodePayload ⟨tid, t_issue, t_issue + SESSION_TTL_SECONDS⟩))) =
      some (mac key (encodePayload ⟨tid, t_issue, t_issue + SESSION_TTL_SECONDS⟩)))
    (hpay : decodePayload
        (encodePayload ⟨tid, t_issue, t_issue + SESSION_TTL_SECONDS⟩) =
      some ⟨tid, t_issue, t_issue + SESSION_TTL_SECONDS⟩) :
    ∃ tok,
      create_session_token (some key) encodePayload mac encodeSig tid t_issue =
          some tok ∧
        (∀ t_verify, t_verify < t_issue + SESSION_TTL_SECONDS →
          ∃ q, parse_and_verify_session (some key) mac decodeSig decodePayload
              t_verify tok = some q ∧ q.telegram_id = tid) ∧
        (∀ t_verify, t_issue + SESSION_TTL_SECONDS < t_verify →
          parse_and_verify_session (some key) mac decodeSig decodePayload
            t_verify tok = none) := by
  refine ⟨_, rfl, ?_, ?_⟩
  · intro t hv
    refine ⟨⟨tid, t_issue, t_issue + SESSION_TTL_SECONDS⟩, ?_, rfl⟩
    exact (verify_some_iff _ _ _ _ _ _ _).mpr
      ⟨encodePayload ⟨tid, t_issue, t_issue + SESSION_TTL_SECONDS⟩,
        encodeSig (mac key (encodePayload ⟨tid, t_issue, t_issue + SESSION_TTL_SECONDS⟩)),
        key, mac key (encodePayload ⟨tid, t_issue, t_issue + SESSION_TTL_SECONDS⟩),
        splitFirstDot_append _ _ hdot, rfl, hsig, rfl, hpay, le_of_lt hv⟩
  · intro t hv
    cases hres : parse_and_verify_session (some key) mac decodeSig decodePayload
        t (encodePayload ⟨tid, t_issue, t_issue + SESSION_TTL_SECONDS⟩ ++
          '.' :: encodeSig (mac key
            (encodePayload ⟨tid, t_issue, t_issue + SESSION_TTL_SECONDS⟩))) with
    | none => rfl
    | some q =>
      exfalso
      obtain ⟨pb, sb, key', sig, hsp, hk, hds, hm, hdp, hle⟩ :=
        (verify_some_iff _ _ _ _ _ _ _).mp hres
      rw [splitFirstDot_append _ _ hdot] at hsp
      obtain ⟨rfl, rfl⟩ := Prod.mk.injEq .. ▸ Option.some.injEq .. ▸ hsp
      rw [hpay] at hdp
      obtain rfl := Option.some.injEq .. ▸ hdp
      simp only at hle
      omega

/-- Witness for C8 with concrete toy codecs satisfying the round-trip
hypotheses. -/
theorem C8_round_trip_witness :
    ∃ tok,
      create_session_token (some [0]) (fun _ => ['A']) (fun _ _ => [7])
          (fun _ => ['S']) 9 0 = some tok ∧
        (∀ t_verify, t_verify < 0 + SESSION_TTL_SECONDS →
          ∃ q, parse_and_verify_session (some [0]) (fun _ _ => [7])
              (fun s => if s = ['S'] then some [7] else none)
              (fun s => if s = ['A'] then
                some (⟨9, 0, 0 + SESSION_TTL_SECONDS⟩ : SessionPayload)
                else none)
              t_verify tok = some q ∧ q.telegram_id = 9) ∧
        (∀ t_verify, 0 + SESSION_TTL_SECONDS < t_verify →
          parse_and_verify_session (some [0]) (fun _ _ => [7])
            (fun s => if s = ['S'] then some [7] else none)
            (fun s => if s = ['A'] then
              some (⟨9, 0, 0 + SESSION_TTL_SECONDS⟩ : SessionPayload)
              else none)
            t_verify tok = none) :=
  C8_round_trip [0] (fun _ => ['A']) (fun _ _ => [7]) (fun _ => ['S'])
    (fun s => if s = ['S'] then some [7] else none)
    (fun s => if s = ['A'] then
      some (⟨9, 0, 0 + SESSION_TTL_SECONDS⟩ : SessionPayload) else none)
    9 0 (by decide) rfl rfl

/-- Key strings of the Telegram login claim set. -/
def hashKey : String := "hash"

def authDateKey : String := "auth_date"

def idKey : String := "id"

def usernameKey : String := "username"

def zeroStr : String := "0"

/-- Digit-string value, `none` on the empty string or any non-digit. -/
def parseDigits (ds : List Char) : Option Nat :=
  if ds = [] then
    none
  else if ds.all (fun c => c.isDigit) then
    some (ds.foldl (fun acc c => acc * 10 + (c.toNat - 48)) 0)
  else
    none

/-- Python's `int(s)` on a decimal string: optional leading minus sign
then digits; `none` models the `ValueError` the callers catch. -/
def pyInt (s : String) : Option Int :=
  match s.data with
  | '-' :: ds => (parseDigits ds).map (fun n => -(n : Int))
  | ds => (parseDigits ds).map (fun n => (n : Int))

/-- Insertion into a key-sorted claim list. Query-parameter keys are
distinct, so ordering ties do not arise. -/
def insertByKey (p : String × String) :
    List (String × String) → List (String × String)
  | [] => [p]
  | q :: t => if p.1 < q.1 then p :: q :: t else q :: insertByKey p t

/-- `sorted(data.items())` as insertion sort by key. -/
def sortByKey : List (String × String) → List (String × String)
  | [] => []
  | p :: t => insertByKey p (sortByKey t)

/-- `verify_telegram_login_payload`. `botToken` is `TELEGRAM_BOT_TOKEN`
(`none` models the unset variable); `mac tok d` stands for the stdlib
HMAC-SHA256 hexdigest of the newline-joined `k=v` serialisation of the
sorted claim list `d` under the key `sha256(tok)`; `now` is
`int(time.time())`. The claim dict is modelled as an association list
used through lookup and filter. -/
def verify_telegram_login_payload (botToken : Option String)
    (mac : String → List (String × String) → String) (now : Int)
    (query_params : List (String × String)) :
    Option (List (String × String)) :=
  match botToken with
  | none => none
  | some token =>
    match query_params.lookup hashKey with
    | none => none
    | some provided_hash =>
      if provided_hash = "" then
        none
      else
        let data := query_params.filter (fun kv => kv.1 ≠ hashKey)
        let computed_hash := mac token (sortByKey data)
        if computed_hash = provided_hash then
          match pyInt ((data.lookup authDateKey).getD zeroStr) with
          | none => none
          | some auth_date =>
            if 600 < (now - auth_date).natAbs then none else some data
        else
          none

/-- Claim C9: login-assertion verification rejects any claim set whose
`auth_date` differs from the current time by more than 10 minutes in
either direction, even when the signature is valid; with an
otherwise-valid signature, an `auth_date` 601 seconds in the past is
rejected and one 599 seconds in the past is accepted. -/
theorem C9_login_auth_date_window :
    (∀ (botToken : Option String)
        (mac : String → List (String × String) → String) (now : Int)
        (params : List (String × String)) (ad : Int),
        pyInt (((params.filter (fun kv => kv.1 ≠ hashKey)).lookup
            authDateKey).getD zeroStr) = some ad →
        600 < (now - ad).natAbs →
        verify_telegram_login_payload botToken mac now params = none) ∧
      (∀ (token : String) (mac : String → List (String × String) → String)
          (now : Int) (params : List (String × String)) (h : String),
        params.lookup hashKey = some h → h ≠ "" →
        mac token (sortByKey (params.filter (fun kv => kv.1 ≠ hashKey))) = h →
        pyInt (((params.filter (fun kv => kv.1 ≠ hashKey)).lookup
            authDateKey).getD zeroStr) = some (now - 601) →
        verify_telegram_login_payload (some token) mac now params = none) ∧
      (∀ (token : String) (mac : String → List (String × String) → String)
          (now : Int) (params : List (String × String)) (h : String),
        params.lookup hashKey = some h → h ≠ "" →
        mac token (sortByKey (params.filter (fun kv => kv.1 ≠ hashKey))) = h →
        pyInt (((params.filter (fun kv => kv.1 ≠ hashKey)).lookup
            authDateKey).getD zeroStr) = some (now - 599) →
        verify_telegram_login_payload (some token) mac now params =
          some (params.filter (fun kv => kv.1 ≠ hashKey))) := by
  refine ⟨?_, ?_, ?_⟩
  · intro botToken mac now params ad had hfar
    unfold verify_telegram_login_payload
    cases botToken with
    | none => rfl
    | some token =>
      simp only
      split
      · rfl
      · split
        · rfl
        · split
          · simp only [had]
            rw [if_pos hfar]
          · rfl
  · intro token mac now params h hh h0 hm had
    unfold verify_telegram_login_payload
    simp only [hh]
    rw [if_neg h0]
    simp only [hm, if_true, ite_true, had]
    rw [if_pos (by omega)]
  · intro token mac now params h hh h0 hm had
    unfold verify_telegram_login_payload
    simp only [hh]
    rw [if_neg h0]
    simp only [hm, if_true, ite_true, had]
    rw [if_neg (by omega)]

/-- Witness for C9's acceptance branch: a valid signature with
`auth_date` 599 seconds in the past is accepted (and its claim set
returned with the hash removed). -/
theorem C9_login_auth_date_window_witness :
    verify_telegram_login_payload (some "T") (fun _ _ => "H") 1000
        [(authDateKey, "401"), (hashKey, "H")] =
      some ([(authDateKey, "401"), (hashKey, "H")].filter
        (fun kv => kv.1 ≠ hashKey)) :=
  C9_login_auth_date_window.2.2 "T" (fun _ _ => "H") 1000
    [(authDateKey, "401"), (hashKey, "H")] "H" rfl (by decide) rfl (by decide)

/-- The reply `handle_start` sends back. -/
inductive StartReply where
  | bannedMsg
  | alreadyRegisteredMsg
  | closedMsg
  | registeredMsg
  deriving DecidableEq, Repr

/-- A store with all tables empty (fresh `Database.init`, with
registrations open by default). -/
def emptyDb : DbState :=
  { users := [], next_user_id := 1, banned := [], registrations_open := true,
    last_prompt := none, next_prompt := none, history := [], photos := [] }

/-- A small populated store used by witnesses: two users, of whom
`20` is banned. -/
def demoDb : DbState :=
  { users := [⟨1, 10, none⟩, ⟨2, 20, none⟩], next_user_id := 3, banned := [20],
    registrations_open := true, last_prompt := none, next_prompt := none,
    history := [], photos := [] }

/-- Claim C7 (amended): for every non-empty participant list and any
combination of per-recipient outcomes, the broadcast attempts delivery
to exactly the non-banned participants — an individual failure never
aborts the loop, since the attempt list does not depend on earlier
outcomes — and afterwards `lastPromptAt` is set to the current instant,
a history entry for it is appended and the history is pruned (with
limit `PROMPT_MINUTE_HISTORY_DAYS = 1440`). For the empty participant
list the code instead returns before touching any state (see the
counterexample). -/
theorem C7_broadcast_updates_state (outcome : Int → Bool) (now : Instant)
    (st : DbState) (h : st.users ≠ []) :
    (send_daily_prompt outcome now st).2 =
        ((st.users.filter (fun u => ¬ st.banned.contains u.telegram_id)).map
          (fun u => (u.telegram_id, outcome u.telegram_id))) ∧
      (send_daily_prompt outcome now st).1.last_prompt = some now ∧
      (send_daily_prompt outcome now st).1.history =
        ((now, now.minuteOfDay) :: st.history).take PROMPT_MINUTE_HISTORY_DAYS := by
  unfold send_daily_prompt
  rw [if_neg h]
  exact ⟨rfl, rfl, rfl⟩

/-- Counterexample to C7 as stated: with the empty participant list the
function returns without setting `lastPromptAt` or appending history. -/
theorem C7_counterexample :
    (send_daily_prompt (fun _ => true) ⟨0, 0⟩ emptyDb).1.last_prompt = none ∧
      (send_daily_prompt (fun _ => true) ⟨0, 0⟩ emptyDb).1.history = [] :=
  ⟨rfl, rfl⟩

/-- Witness for C7: two users, one banned, one failing delivery. -/
theorem C7_broadcast_updates_state_witness :
    (send_daily_prompt (fun _ => false) ⟨0, 120000000⟩ demoDb).2 =
        ((demoDb.users.filter (fun u => ¬ demoDb.banned.contains u.telegram_id)).map
          (fun u => (u.telegram_id, (fun _ => false) u.telegram_id))) ∧
      (send_daily_prompt (fun _ => false) ⟨0, 120000000⟩ demoDb).1.last_prompt =
        some ⟨0, 120000000⟩ ∧
      (send_daily_prompt (fun _ => false) ⟨0, 120000000⟩ demoDb).1.history =
        ((⟨0, 120000000⟩, Instant.minuteOfDay ⟨0, 120000000⟩) ::
          demoDb.history).take PROMPT_MINUTE_HISTORY_DAYS :=
  C7_broadcast_updates_state (fun _ => false) ⟨0, 120000000⟩ demoDb (by decide)

/-- One broadcast's history bookkeeping, as `send_daily_prompt` performs
it after the delivery loop: record the prompt instant, append a history
row, prune. -/
def recordPrompt (st : DbState) (ts : Instant) : DbState :=
  prune_prompt_history (add_prompt_history (set_last_prompt st ts) ts)
    PROMPT_MINUTE_HISTORY_DAYS

theorem take_append_take {α : Type} (A B : List α) (n : Nat) :
    (A ++ B.take n).take n = (A ++ B).take n := by
  rw [List.take_append_eq_append_take, List.take_append_eq_append_take,
    List.take_take, Nat.min_eq_left (Nat.sub_le n A.length)]

theorem foldl_recordPrompt_history (l : List Instant) :
    ∀ st : DbState, st.history.length ≤ PROMPT_MINUTE_HISTORY_DAYS →
      (l.foldl recordPrompt st).history =
        ((l.map (fun ts => (ts, ts.minuteOfDay))).reverse ++ st.history).take
          PROMPT_MINUTE_HISTORY_DAYS := by
  induction l with
  | nil =>
    intro st h
    simp [List.take_of_length_le h]
  | cons x t ih =>
    intro st h
    have hlen : (recordPrompt st x).history.length ≤ PROMPT_MINUTE_HISTORY_DAYS := by
      show (((x, x.minuteOfDay) :: st.history).take
        PROMPT_MINUTE_HISTORY_DAYS).length ≤ PROMPT_MINUTE_HISTORY_DAYS
      rw [List.length_take]
      exact Nat.min_le_left _ _
    rw [List.foldl_cons, ih _ hlen]
    have hrec : (recordPrompt st x).history =
        ((x, x.minuteOfDay) :: st.history).take PROMPT_MINUTE_HISTORY_DAYS := rfl
    rw [hrec, take_append_take]
    congr 1
    simp [List.append_assoc]

/-- Claim C2 (amended): the history is pruned after every append with
limit `PROMPT_MINUTE_HISTORY_DAYS = 1440` (not 1439), so after appending
entries one at a time starting from an empty table, the rows that remain
are the 1440 most-recently-inserted entries — after 1450 appends,
exactly `min 1440 1450 = 1440` rows remain. -/
theorem C2_history_pruned_to_1440 (l : List Instant) (st : DbState)
    (h : st.history = []) :
    (l.foldl recordPrompt st).history =
        ((l.map (fun ts => (ts, ts.minuteOfDay))).reverse).take 1440 ∧
      (l.foldl recordPrompt st).history.length = min 1440 l.length := by
  have h2 := foldl_recordPrompt_history l st (by rw [h]; simp)
  rw [h, List.append_nil] at h2
  refine ⟨h2, ?_⟩
  rw [h2]
  simp [List.length_take, PROMPT_MINUTE_HISTORY_DAYS]

/-- Counterexample to C2 as stated: after 1450 one-at-a-time appends
(each followed by the prune `send_daily_prompt` performs), 1440 rows
remain, not 1439. -/
theorem C2_counterexample :
    ((((List.range 1450).map (fun i => Instant.mk 0 i)).foldl recordPrompt
        emptyDb).history).length = 1440 ∧ (1440 : Nat) ≠ 1439 := by
  refine ⟨?_, by decide⟩
  have h := foldl_recordPrompt_history
    ((List.range 1450).map (fun i => Instant.mk 0 i)) emptyDb (by simp [emptyDb])
  rw [h]
  simp [emptyDb, List.length_take, PROMPT_MINUTE_HISTORY_DAYS]

/-- Witness for C2 at the 1450-append scenario. -/
theorem C2_history_pruned_to_1440_witness :
    ((((List.range 1450).map (fun i => Instant.mk 0 i)).foldl recordPrompt
          emptyDb).history =
        ((((List.range 1450).map (fun i => Instant.mk 0 i)).map
          (fun ts => (ts, ts.minuteOfDay))).reverse).take 1440) ∧
      ((((List.range 1450).map (fun i => Instant.mk 0 i)).foldl recordPrompt
          emptyDb).history).length =
        min 1440 ((List.range 1450).map (fun i => Instant.mk 0 i)).length :=
  C2_history_pruned_to_1440 ((List.range 1450).map (fun i => Instant.mk 0 i))
    emptyDb rfl

/-- Claim C4: on a scheduler iteration whose persisted `nextPromptAt` is
absent or not strictly after the current instant, the loop recomputes a
fresh target by `choose_prompt_time` fed with the persisted
`lastPromptAt` and the avoidance set `get_recent_prompt_minutes(1439)`,
persists it as the new `nextPromptAt`, and the instant it then sleeps
toward is strictly in the future — it does not fire immediately for the
stale target. -/
theorem C4_stale_target_recomputed (choice : List Nat → Nat) (now : Instant)
    (st : DbState) (hc : ChoiceSpec choice) (hnow : now.valid)
    (hstale : st.next_prompt = none ∨
      ∃ t, st.next_prompt = some t ∧ t.toUs ≤ now.toUs) :
    (scheduler_step choice now st).1 =
        choose_prompt_time choice now st.last_prompt
          (get_recent_prompt_minutes st (PROMPT_MINUTE_HISTORY_DAYS - 1)) ∧
      (scheduler_step choice now st).2.next_prompt =
        some (choose_prompt_time choice now st.last_prompt
          (get_recent_prompt_minutes st (PROMPT_MINUTE_HISTORY_DAYS - 1))) ∧
      now.toUs < (scheduler_step choice now st).1.toUs := by
  have hgt := (choose_prompt_time_sound choice now st.last_prompt
    (get_recent_prompt_minutes st (PROMPT_MINUTE_HISTORY_DAYS - 1)) hc hnow).1
  rcases hstale with hn | ⟨t, ht, hle⟩
  · unfold scheduler_step
    rw [hn]
    exact ⟨rfl, rfl, hgt⟩
  · unfold scheduler_step
    rw [ht]
    simp only [hle, if_true, ite_true]
    exact ⟨trivial, rfl, hgt⟩

/-- Witness for C4: restart finds a target 10 minutes in the past
(`now` at 600 s into the day, persisted target at midnight). -/
theorem C4_stale_target_recomputed_witness :
    (scheduler_step headChoice ⟨0, 600000000⟩
          { emptyDb with next_prompt := some ⟨0, 0⟩ }).1 =
        choose_prompt_time headChoice ⟨0, 600000000⟩
          ({ emptyDb with next_prompt := some ⟨0, 0⟩ } : DbState).last_prompt
          (get_recent_prompt_minutes { emptyDb with next_prompt := some ⟨0, 0⟩ }
            (PROMPT_MINUTE_HISTORY_DAYS - 1)) ∧
      (scheduler_step headChoice ⟨0, 600000000⟩
          { emptyDb with next_prompt := some ⟨0, 0⟩ }).2.next_prompt =
        some (choose_prompt_time headChoice ⟨0, 600000000⟩
          ({ emptyDb with next_prompt := some ⟨0, 0⟩ } : DbState).last_prompt
          (get_recent_prompt_minutes { emptyDb with next_prompt := some ⟨0, 0⟩ }
            (PROMPT_MINUTE_HISTORY_DAYS - 1))) ∧
      (Instant.mk 0 600000000).toUs <
        (scheduler_step headChoice ⟨0, 600000000⟩
          { emptyDb with next_prompt := some ⟨0, 0⟩ }).1.toUs :=
  C4_stale_target_recomputed headChoice ⟨0, 600000000⟩
    { emptyDb with next_prompt := some ⟨0, 0⟩ } headChoice_spec (by decide)
    (Or.inr ⟨⟨0, 0⟩, rfl, by decide⟩)

/-- `handle_start`: registration over the message channel. -/
def handle_start (chat_id : Int) (username : Option String) (st : DbState) :
    DbState × StartReply :=
  if is_user_banned st chat_id then
    (st, .bannedMsg)
  else
    match get_user_by_telegram st chat_id with
    | some _ => ((upsert_user st chat_id username).2, .alreadyRegisteredMsg)
    | none =>
      if ¬ st.registrations_open then
        (st, .closedMsg)
      else
        ((upsert_user st chat_id username).2, .registeredMsg)


/-- Outcome of `telegram_auth_callback`, up to cookie/redirect plumbing:
an HTTP error status, or a redirect carrying the minted session cookie. -/
inductive CallbackResult where
  | httpError (status : Nat)
  | redirect (token : Str)
  deriving DecidableEq, Repr

/-- `telegram_auth_callback` (`app/main.py` lines 739–778): verify the
login assertion, read the Telegram id (`int(payload["id"])`, whose
`KeyError`/`ValueError` the handler maps to 400), reject banned users,
reject unknown users while registrations are closed, then upsert and
mint the session cookie (a missing `APP_SESSION_SECRET` raises
`RuntimeError`, mapped to 500). -/
def telegram_auth_callback (botToken : Option String)
    (macLogin : String → List (String × String) → String)
    (secret : Option (List Nat)) (encodePayload : SessionPayload → Str)
    (macSession : List Nat → Str → List Nat) (encodeSig : List Nat → Str)
    (now : Int) (query_params : List (String × String)) (st : DbState) :
    DbState × CallbackResult :=
  match verify_telegram_login_payload botToken macLogin now query_params with
  | none => (st, .httpError 401)
  | some payload =>
    match (payload.lookup idKey).bind pyInt with
    | none => (st, .httpError 400)
    | some telegram_id =>
      if is_user_banned st telegram_id then
        (st, .httpError 403)
      else if get_user_by_telegram st telegram_id = none ∧
          ¬ st.registrations_open then
        (st, .httpError 403)
      else
        let st2 := (upsert_user st telegram_id (payload.lookup usernameKey)).2
        match create_session_token secret encodePayload macSession encodeSig
            telegram_id now with
        | none => (st2, .httpError 500)
        | some tok => (st2, .redirect tok)

/-- Claim C10 (implicit): a photo arriving within the capture window
from a non-banned sender with no participant record creates the record
(via upsert) and stores the photo even while the registrations-open
flag is false; the closed-registrations gate applies to the `/start`
registration command (which replies that registrations are closed and
leaves the store unchanged) and to the login callback (403, store
unchanged), but not to inbound photo submission. -/
theorem C10_photo_bypasses_registration_gate (now ts : Instant)
    (chat_id : Int) (username : Option String) (st : DbState) (lp : Instant)
    (botToken : Option String)
    (macLogin : String → List (String × String) → String)
    (secret : Option (List Nat)) (encodePayload : SessionPayload → Str)
    (macSession : List Nat → Str → List Nat) (encodeSig : List Nat → Str)
    (nowSec : Int) (query_params : List (String × String))
    (payload : List (String × String))
    (hclosed : st.registrations_open = false)
    (hban : is_user_banned st chat_id = false)
    (hlast : st.last_prompt = some lp)
    (hwin : now.diffUs lp ≤ 60 * 1000000)
    (hnouser : get_user_by_telegram st chat_id = none)
    (hverify : verify_telegram_login_payload botToken macLogin nowSec
        query_params = some payload)
    (hid : (payload.lookup idKey).bind pyInt = some chat_id) :
    ((handle_photo now ts chat_id username st).2 = PhotoReply.savedMsg ∧
      (handle_photo now ts chat_id username st).1.users =
        st.users ++ [⟨st.next_user_id, chat_id, username⟩] ∧
      (handle_photo now ts chat_id username st).1.photos =
        st.photos ++ [⟨st.next_user_id, ts⟩]) ∧
      handle_start chat_id username st = (st, StartReply.closedMsg) ∧
      telegram_auth_callback botToken macLogin secret encodePayload macSession
        encodeSig nowSec query_params st = (st, CallbackResult.httpError 403) := by
  have hfind : st.users.find? (fun u => u.telegram_id == chat_id) = none := hnouser
  have hnlt : ¬ (60000000 : Int) < now.diffUs lp := by omega
  refine ⟨⟨?_, ?_, ?_⟩, ?_, ?_⟩
  · simp [handle_photo, hban, hlast, hnlt, hnouser]
  · simp [handle_photo, upsert_user, add_photo, hban, hlast, hnlt, hnouser, hfind]
  · simp [handle_photo, upsert_user, add_photo, hban, hlast, hnlt, hnouser, hfind]
  · simp [handle_start, hban, hnouser, hclosed]
  · simp [telegram_auth_callback, hverify, hid, hban, hnouser, hclosed]

/-- A store with registrations closed and a prompt just fired. -/
def closedDb : DbState :=
  { emptyDb with registrations_open := false, last_prompt := some ⟨0, 0⟩ }

/-- Witness for C10: 30 s after the prompt, an unknown non-banned
sender, registrations closed, with a concretely verified login
assertion carrying the same Telegram id. -/
theorem C10_photo_bypasses_registration_gate_witness :
    ((handle_photo ⟨0, 30000000⟩ ⟨0, 31000000⟩ 10 none closedDb).2 =
        PhotoReply.savedMsg ∧
      (handle_photo ⟨0, 30000000⟩ ⟨0, 31000000⟩ 10 none closedDb).1.users =
        closedDb.users ++ [⟨closedDb.next_user_id, 10, none⟩] ∧
      (handle_photo ⟨0, 30000000⟩ ⟨0, 31000000⟩ 10 none closedDb).1.photos =
        closedDb.photos ++ [⟨closedDb.next_user_id, ⟨0, 31000000⟩⟩]) ∧
      handle_start 10 none closedDb = (closedDb, StartReply.closedMsg) ∧
      telegram_auth_callback (some "T") (fun _ _ => "H") none (fun _ => [])
        (fun _ _ => []) (fun _ => []) 1000
        [(authDateKey, "401"), (hashKey, "H"), (idKey, "10")] closedDb =
        (closedDb, CallbackResult.httpError 403) :=
  C10_photo_bypasses_registration_gate ⟨0, 30000000⟩ ⟨0, 31000000⟩ 10 none
    closedDb ⟨0, 0⟩ (some "T") (fun _ _ => "H") none (fun _ => [])
    (fun _ _ => []) (fun _ => []) 1000
    [(authDateKey, "401"), (hashKey, "H"), (idKey, "10")]
    [(authDateKey, "401"), (idKey, "10")]
    rfl rfl rfl (by decide) rfl rfl rfl
